import Mathlib

/-!
Verification of the flowers repository's bouquet/flower data layer
(src/flower.py and src/bouquet.py), shallowly embedded in Lean 4.

The embedding:
* `FlowerData` mirrors the namedtuple FlowerData(name, color, size).
* A bouquet's composition (Bouquet.flowers) is a `List FlowerData`.
* The Bouquets.xlsx file is a `List BouquetRow` (one element per data row).
* A Python dict such as `all_bouquets` is an association list
  `List (String × List FlowerData)` (insertion ordered, unique keys).
-/

set_option maxRecDepth 4000

/-- FlowerData = namedtuple('FlowerData', ['name', 'color', 'size']) -/
structure FlowerData where
  name : String
  color : String
  size : String
deriving DecidableEq, Repr

/-- Removing the first occurrence of `f` in a list, the effect of one pass of
the inner loop of `Bouquet.remove_flower` (find the first match, `list.remove`
it, `break`; nothing happens when there is no match). -/
def removeFirst (flowers : List FlowerData) (f : FlowerData) : List FlowerData :=
  match flowers with
  | [] => []
  | x :: xs => if x = f then xs else x :: removeFirst xs f

/-- `Bouquet.select_flower(flower, count)`: appends `count` copies. -/
def select_flower (flowers : List FlowerData) (f : FlowerData) (count : Nat) :
    List FlowerData :=
  flowers ++ List.replicate count f

/-- `Bouquet.remove_flower(flower, count)`: `count` iterations, each removing
the first matching entry if any; an iteration with no match does nothing. -/
def remove_flower (flowers : List FlowerData) (f : FlowerData) : Nat → List FlowerData
  | 0 => flowers
  | Nat.succ n => remove_flower (removeFirst flowers f) f n

/-- `Bouquet.flower_count()`: the defaultdict of multiplicities, as a total
function (a record absent from the dict reads as multiplicity 0). -/
def flower_count (flowers : List FlowerData) (f : FlowerData) : Nat :=
  flowers.count f

/-- One call in a select/remove call sequence on a bouquet. -/
inductive BouquetOp where
  | select (f : FlowerData) (count : Nat)
  | remove (f : FlowerData) (count : Nat)
deriving DecidableEq, Repr

/-- Apply one call to the bouquet's composition. -/
def applyOp (l : List FlowerData) : BouquetOp → List FlowerData
  | BouquetOp.select f n => select_flower l f n
  | BouquetOp.remove f n => remove_flower l f n

/-- Apply a call sequence left to right. -/
def applyOps (l : List FlowerData) (ops : List BouquetOp) : List FlowerData :=
  ops.foldl applyOp l

/-- A call sequence is valid when no remove asks for more copies of a record
than are currently present. -/
def validOps : List FlowerData → List BouquetOp → Bool
  | _, [] => true
  | l, op :: ops =>
    (match op with
     | BouquetOp.remove f n => decide (n ≤ l.count f)
     | BouquetOp.select _ _ => true) && validOps (applyOp l op) ops

/-- Signed contribution of one call to the multiplicity of `f`. -/
def opDelta (f : FlowerData) : BouquetOp → Int
  | BouquetOp.select g n => if g = f then (n : Int) else 0
  | BouquetOp.remove g n => if g = f then -(n : Int) else 0

/-- Total additions minus removals of `f` over a call sequence. -/
def netAdded (ops : List BouquetOp) (f : FlowerData) : Int :=
  (ops.map (opDelta f)).sum

/-- The (Rose, Red, Medium) record of the spec's worked example. -/
def roseRedMedium : FlowerData := ⟨"Rose", "Red", "Medium"⟩

/-- Modelled from the spec: the spec's claimed variant of remove_flower that
removes matches one at a time and raises on the removal step that finds no
more matching entries. Used only to compare the spec's claimed error behavior
with the code's actual (total, never-failing) remove_flower. -/
def remove_flower_specModel (flowers : List FlowerData) (f : FlowerData) :
    Nat → Except String (List FlowerData)
  | 0 => Except.ok flowers
  | Nat.succ n =>
    if f ∈ flowers then remove_flower_specModel (removeFirst flowers f) f n
    else Except.error "no matching flower"

/-- One data row of Bouquets.xlsx. A placeholder row (recording an empty
bouquet) has `flower = none` (NaN Flower Name / Color / Size cells); the
optional Wix ID / Wix Category columns are `none` when the cell is empty. -/
structure BouquetRow where
  bouquetName : String
  flower : Option FlowerData
  count : Nat
  wixId : Option String
  wixCat : Option String
deriving DecidableEq, Repr

/-- The rows of the file belonging to one bouquet name (a pandas group), in
file order. -/
def rowsFor (file : List BouquetRow) (n : String) : List BouquetRow :=
  file.filter (fun r => r.bouquetName = n)

/-- First-appearance deduplication with an accumulator of already-seen keys:
the key order of a Python dict built by iterating. -/
def distinctFirstAux {α : Type} [DecidableEq α] (seen : List α) : List α → List α
  | [] => []
  | a :: as =>
    if a ∈ seen then distinctFirstAux seen as
    else a :: distinctFirstAux (a :: seen) as

/-- The distinct elements of a list in order of first appearance. -/
def distinctFirst {α : Type} [DecidableEq α] (l : List α) : List α :=
  distinctFirstAux [] l

/-- The distinct bouquet names appearing in the file. -/
def namesOf (file : List BouquetRow) : List String :=
  distinctFirst (file.map (fun r => r.bouquetName))

/-- Expanding one group of rows into the flat flower list: rows whose Flower
Name is NaN are skipped, other rows contribute `count` copies of the record
(the inner loop of load_all_bouquets). -/
def loadFromRows (rows : List BouquetRow) : List FlowerData :=
  (rows.map (fun r => match r.flower with
    | some f => List.replicate r.count f
    | none => [])).flatten

/-- The flower list load_all_bouquets builds for one bouquet name. -/
def loadFlowers (file : List BouquetRow) (n : String) : List FlowerData :=
  loadFromRows (rowsFor file n)

/-- load_all_bouquets: the dict name -> flat flower list, one entry per
bouquet name appearing in the file (an empty group still gets an entry). -/
def load_all_bouquets (file : List BouquetRow) : List (String × List FlowerData) :=
  (namesOf file).map (fun n => (n, loadFlowers file n))

/-- Lookup in an association list modelling a Python dict. -/
def assocLookup {β : Type} (l : List (String × β)) (n : String) : Option β :=
  match l with
  | [] => none
  | e :: rest => if e.1 = n then some e.2 else assocLookup rest n

/-- `group["Wix ID"].dropna().iloc[0]`: the first non-null Wix ID among the
rows of a bouquet name. -/
def firstWixId (file : List BouquetRow) (n : String) : Option String :=
  ((rowsFor file n).filterMap (fun r => r.wixId)).head?

/-- `group["Wix Category"].dropna().iloc[0]`: first non-null Wix Category. -/
def firstWixCat (file : List BouquetRow) (n : String) : Option String :=
  ((rowsFor file n).filterMap (fun r => r.wixCat)).head?

/-- Python string truthiness of an optional cell value (`if wix_id:`):
None and the empty string are falsy. -/
def optTruthy : Option String → Option String
  | none => none
  | some s => if s = "" then none else some s

/-- The rows save_all_bouquets emits for one store entry: a single
placeholder row for an empty bouquet, otherwise one counted row per distinct
record (dict-of-counts key order), each row carrying the Wix metadata the
pre-existing file held under this bouquet name. -/
def rowsOfEntry (old : List BouquetRow) (e : String × List FlowerData) :
    List BouquetRow :=
  let wid := optTruthy (firstWixId old e.1)
  let wcat := optTruthy (firstWixCat old e.1)
  if e.2 = [] then
    [⟨e.1, none, 0, wid, wcat⟩]
  else
    (distinctFirst e.2).map (fun f => ⟨e.1, some f, e.2.count f, wid, wcat⟩)

/-- save_all_bouquets: rewrite the whole file from the store, preserving the
Wix ID / Wix Category metadata found in the pre-existing file `old`. -/
def save_all_bouquets (old : List BouquetRow)
    (store : List (String × List FlowerData)) : List BouquetRow :=
  (store.map (rowsOfEntry old)).flatten

/-- The canonical flat list a bouquet's composition round-trips to: counted
rows expanded back, one block per distinct record. -/
def expandCounts (fl : List FlowerData) : List FlowerData :=
  ((distinctFirst fl).map (fun f => List.replicate (fl.count f) f)).flatten

/-- The in-memory state a Bouquet constructor call produces. -/
structure BouquetState where
  name : String
  flowers : List FlowerData
deriving DecidableEq, Repr

/-- Bouquet.__init__(name, based_on, load_existing): if the name is already
in the store it either loads it (load_existing) or raises "already exists";
otherwise, with a truthy based_on it copies that bouquet (raising "not found"
if the base is absent) under a lineage-encoding name; otherwise it silently
yields a fresh empty bouquet. -/
def bouquetInit (file : List BouquetRow) (name : String)
    (based_on : Option String) (load_existing : Bool) :
    Except String BouquetState :=
  match assocLookup (load_all_bouquets file) name with
  | some fl =>
    if load_existing then Except.ok ⟨name, fl⟩
    else Except.error ("Bouquet '" ++ name ++ "' already exists")
  | none =>
    match based_on with
    | some b =>
      if b = "" then Except.ok ⟨name, []⟩
      else
        match assocLookup (load_all_bouquets file) b with
        | some bfl => Except.ok ⟨name ++ " (based on " ++ b ++ ")", bfl⟩
        | none => Except.error ("Bouquet '" ++ b ++ "' not found")
    | none => Except.ok ⟨name, []⟩

/-- The per-flower configuration FlowersTypes stores under each name. -/
structure FlowerConfig where
  colors : List String
  sizes : List String
deriving DecidableEq, Repr

/-- FlowersTypes.add(name): insert with empty colors/sizes only when the name
is not yet present; a duplicate add is a silent no-op. -/
def typesAdd (flowers : List (String × FlowerConfig)) (name : String) :
    List (String × FlowerConfig) :=
  if (assocLookup flowers name).isSome then flowers
  else flowers ++ [(name, ⟨[], []⟩)]

/-- FlowersTypes.remove(name): delete the entry when present; removing an
absent name is a silent no-op. -/
def typesRemove (flowers : List (String × FlowerConfig)) (name : String) :
    List (String × FlowerConfig) :=
  if (assocLookup flowers name).isSome then
    flowers.filter (fun e => ¬ (e.1 = name))
  else flowers

/-- Removing the first occurrence of a string (Python list.remove). -/
def removeFirstStr (l : List String) (s : String) : List String :=
  match l with
  | [] => []
  | x :: xs => if x = s then xs else x :: removeFirstStr xs s

/-- FlowerColors.add(color): append only when absent; duplicate add is a
silent no-op. -/
def colorsAdd (colors : List String) (c : String) : List String :=
  if c ∈ colors then colors else colors ++ [c]

/-- FlowerColors.remove(color): remove the first occurrence when present;
removing an absent color is a silent no-op. -/
def colorsRemove (colors : List String) (c : String) : List String :=
  if c ∈ colors then removeFirstStr colors c else colors

/-- Python dict assignment `all_bouquets[name] = flowers`: replace in place
when the key exists, else append a new entry. -/
def storeUpdate (store : List (String × List FlowerData)) (n : String)
    (fl : List FlowerData) : List (String × List FlowerData) :=
  if (assocLookup store n).isSome then
    store.map (fun e => if e.1 = n then (e.1, fl) else e)
  else store ++ [(n, fl)]

/-- Bouquet.save(): reload the store, overwrite this bouquet's entry, and
rewrite the whole file (preserving the file's Wix metadata columns). -/
def bouquetSave (file : List BouquetRow) (bname : String)
    (flowers : List FlowerData) : List BouquetRow :=
  save_all_bouquets file (storeUpdate (load_all_bouquets file) bname flowers)

/-- Bouquet.rename_bouquet(old, new): load the store, fail "not found" when
old is absent, fail "already exists" when new is present, otherwise pop the
old entry, re-insert its composition under the new name (at the end of the
dict) and rewrite the file. -/
def rename_bouquet (file : List BouquetRow) (oldN newN : String) :
    Except String (List BouquetRow) :=
  match assocLookup (load_all_bouquets file) oldN with
  | none => Except.error ("Bouquet '" ++ oldN ++ "' not found.")
  | some fl =>
    if (assocLookup (load_all_bouquets file) newN).isSome then
      Except.error ("Bouquet '" ++ newN ++ "' already exists.")
    else
      Except.ok (save_all_bouquets file
        ((load_all_bouquets file).filter (fun e => ¬ (e.1 = oldN)) ++
          [(newN, fl)]))

/-- Python str.strip() on the underlying characters. -/
def stripChars (l : List Char) : List Char :=
  ((l.dropWhile Char.isWhitespace).reverse.dropWhile Char.isWhitespace).reverse

/-- Python `str(x).strip()` for a cell value modelled as a string. -/
def pyStrip (s : String) : String := ⟨stripChars s.data⟩

/-- First pass of set_bouquet_wix_id on one row: rows of the target bouquet
get the new Wix ID; a None id clears both columns; a falsy category argument
leaves the existing category untouched. -/
def setWixStep1 (bname : String) (wixId : Option String)
    (wixCat : Option String) (r : BouquetRow) : BouquetRow :=
  if r.bouquetName = bname then
    match wixId with
    | none => { r with wixId := none, wixCat := none }
    | some s =>
      { r with wixId := some s,
               wixCat :=
                 match wixCat with
                 | some c => if c = "" then r.wixCat else some c
                 | none => r.wixCat }
  else r

/-- Second pass (only when a non-None id is being set): any other bouquet's
row holding the same Wix ID gets both its Wix columns cleared. -/
def setWixStep2 (bname : String) (s : String) (r : BouquetRow) : BouquetRow :=
  if r.wixId = some s ∧ ¬ (r.bouquetName = bname) then
    { r with wixId := none, wixCat := none }
  else r

/-- set_bouquet_wix_id(bouquet_name, wix_id, wix_category): update the target
bouquet's rows, then enforce at-most-one-bouquet-per-id by clearing the id
from every other bouquet's rows. -/
def set_bouquet_wix_id (file : List BouquetRow) (bname : String)
    (wixId : Option String) (wixCat : Option String) : List BouquetRow :=
  match wixId with
  | none => file.map (setWixStep1 bname none wixCat)
  | some s =>
    (file.map (setWixStep1 bname (some s) wixCat)).map (setWixStep2 bname s)

/-- One row's effect on the reverse map being built by get_wix_id_map: a
non-null id whose stripped form and bouquet name are both truthy overwrites
the map at the stripped id. -/
def wixMapStep (m : String → Option String) (r : BouquetRow) :
    String → Option String :=
  match r.wixId with
  | none => m
  | some s =>
    if pyStrip s ≠ "" ∧ r.bouquetName ≠ "" then
      fun x => if x = pyStrip s then some r.bouquetName else m x
    else m

/-- get_wix_id_map(): the reverse mapping Wix ID -> bouquet name, later rows
overwriting earlier ones. -/
def get_wix_id_map (file : List BouquetRow) : String → Option String :=
  file.foldl wixMapStep (fun _ => none)

theorem count_removeFirst_self (l : List FlowerData) (f : FlowerData) :
    (removeFirst l f).count f = l.count f - 1 := by
  induction l with
  | nil => simp [removeFirst]
  | cons x xs ih =>
    by_cases hx : x = f
    · simp [removeFirst, hx, List.count_cons]
    · simp [removeFirst, hx, List.count_cons, ih]

theorem count_removeFirst_other (l : List FlowerData) (f g : FlowerData)
    (h : g ≠ f) : (removeFirst l f).count g = l.count g := by
  induction l with
  | nil => simp [removeFirst]
  | cons x xs ih =>
    by_cases hx : x = f
    · subst hx
      simp [removeFirst, List.count_cons, h]
    · simp [removeFirst, hx, List.count_cons, ih]

theorem removeFirst_not_mem (l : List FlowerData) (f : FlowerData)
    (h : f ∉ l) : removeFirst l f = l := by
  induction l with
  | nil => rfl
  | cons x xs ih =>
    have hx : x ≠ f := fun hxf => h (hxf ▸ List.mem_cons_self x xs)
    have hxs : f ∉ xs := fun hm => h (List.mem_cons_of_mem x hm)
    simp [removeFirst, hx, ih hxs]

theorem count_remove_flower_self (l : List FlowerData) (f : FlowerData) (n : Nat) :
    (remove_flower l f n).count f = l.count f - n := by
  induction n generalizing l with
  | zero => simp [remove_flower]
  | succ n ih =>
    rw [remove_flower, ih, count_removeFirst_self]
    omega

theorem count_remove_flower_other (l : List FlowerData) (f g : FlowerData) (n : Nat)
    (h : g ≠ f) : (remove_flower l f n).count g = l.count g := by
  induction n generalizing l with
  | zero => simp [remove_flower]
  | succ n ih =>
    rw [remove_flower, ih, count_removeFirst_other _ _ _ h]

theorem remove_flower_not_mem (l : List FlowerData) (f : FlowerData) (n : Nat)
    (h : f ∉ l) : remove_flower l f n = l := by
  induction n with
  | zero => rfl
  | succ n ih => rw [remove_flower, removeFirst_not_mem l f h, ih]

theorem count_select_flower (l : List FlowerData) (f g : FlowerData) (n : Nat) :
    (select_flower l f n).count g = l.count g + if f = g then n else 0 := by
  by_cases h : f = g <;>
    simp [select_flower, List.count_append, List.count_replicate, h]

theorem count_applyOps (l : List FlowerData) (ops : List BouquetOp)
    (hv : validOps l ops = true) (f : FlowerData) :
    ((applyOps l ops).count f : Int) = (l.count f : Int) + netAdded ops f := by
  induction ops generalizing l with
  | nil => simp [applyOps, netAdded]
  | cons op ops ih =>
    have hstep : applyOps l (op :: ops) = applyOps (applyOp l op) ops := rfl
    have hsum : netAdded (op :: ops) f = opDelta f op + netAdded ops f := by
      simp [netAdded]
    cases op with
    | select g n =>
      have hv0 : (true && validOps (applyOp l (BouquetOp.select g n)) ops) = true := hv
      rw [Bool.true_and] at hv0
      have hrest := ih (applyOp l (BouquetOp.select g n)) hv0
      rw [hstep, hrest, hsum]
      have hone : ((applyOp l (BouquetOp.select g n)).count f : Int) =
          (l.count f : Int) + opDelta f (BouquetOp.select g n) := by
        rw [applyOp, count_select_flower]
        by_cases hg : g = f <;> simp [opDelta, hg]
      omega
    | remove g n =>
      have hv0 : (decide (n ≤ l.count g) &&
          validOps (applyOp l (BouquetOp.remove g n)) ops) = true := hv
      rw [Bool.and_eq_true] at hv0
      have hn : n ≤ l.count g := by
        have := hv0.1
        simpa using this
      have hrest := ih (applyOp l (BouquetOp.remove g n)) hv0.2
      rw [hstep, hrest, hsum]
      have hone : ((applyOp l (BouquetOp.remove g n)).count f : Int) =
          (l.count f : Int) + opDelta f (BouquetOp.remove g n) := by
        by_cases hg : g = f
        · subst hg
          rw [applyOp, count_remove_flower_self]
          simp [opDelta]
          omega
        · rw [applyOp, count_remove_flower_other _ _ _ _ (Ne.symm hg)]
          simp [opDelta, hg]
      omega

/-- C2: for every bouquet composition and every valid select/remove call
sequence (no remove ever asks for more copies than are present), each record's
final multiplicity is its initial multiplicity plus total added minus total
removed; hence it depends only on the per-record totals, not on the
interleaving order, and starting from a fresh (empty) bouquet it is exactly
additions minus removals; in particular select 3 then remove 2 leaves 1. -/
theorem C2_flower_count_net (l : List FlowerData) (ops : List BouquetOp)
    (hv : validOps l ops = true) :
    (∀ f, ((applyOps l ops).count f : Int) = (l.count f : Int) + netAdded ops f) ∧
    (∀ ops' f, validOps l ops' = true → netAdded ops' f = netAdded ops f →
        (applyOps l ops').count f = (applyOps l ops).count f) ∧
    (∀ f ops₀, validOps [] ops₀ = true →
        ((applyOps [] ops₀).count f : Int) = netAdded ops₀ f) ∧
    flower_count (applyOps []
        [BouquetOp.select roseRedMedium 3, BouquetOp.remove roseRedMedium 2])
        roseRedMedium = 1 := by
  refine ⟨fun f => count_applyOps l ops hv f, ?_, ?_, by decide⟩
  · intro ops' f hv' hnet
    have h1 := count_applyOps l ops hv f
    have h2 := count_applyOps l ops' hv' f
    omega
  · intro f ops₀ hv₀
    have h := count_applyOps [] ops₀ hv₀ f
    simpa using h

theorem C2_flower_count_net_witness :
    validOps [] [BouquetOp.select roseRedMedium 3] = true ∧
    (((applyOps [] [BouquetOp.select roseRedMedium 3]).count roseRedMedium : Int) =
      (([] : List FlowerData).count roseRedMedium : Int) +
        netAdded [BouquetOp.select roseRedMedium 3] roseRedMedium) :=
  ⟨by decide, (C2_flower_count_net [] [BouquetOp.select roseRedMedium 3]
      (by decide)).1 roseRedMedium⟩

/-- C3 counterexample: removing 2 copies of a record of which only 1 is
present makes the code's remove_flower return the emptied list normally,
while the spec's claimed raising variant fails: the code never raises. -/
theorem C3_counterexample :
    remove_flower [roseRedMedium] roseRedMedium 2 = ([] : List FlowerData) ∧
    remove_flower_specModel [roseRedMedium] roseRedMedium 2 =
      Except.error "no matching flower" :=
  ⟨by decide, rfl⟩

/-- C3 (amended): if fewer than `n` occurrences of `r` are present,
remove_flower(r, n) removes all occurrences that are present (the record's
multiplicity drops to 0), leaves every other record unchanged, and completes
normally — it does not raise on the removal steps that find no more matches. -/
theorem C3_remove_flower_insufficient (l : List FlowerData) (r : FlowerData)
    (n : Nat) (h : l.count r < n) :
    (remove_flower l r n).count r = 0 ∧
    (∀ g, g ≠ r → (remove_flower l r n).count g = l.count g) := by
  refine ⟨?_, fun g hg => count_remove_flower_other l r g n hg⟩
  rw [count_remove_flower_self]
  omega

theorem C3_remove_flower_insufficient_witness :
    ([roseRedMedium] : List FlowerData).count roseRedMedium < 2 ∧
    (remove_flower [roseRedMedium] roseRedMedium 2).count roseRedMedium = 0 :=
  ⟨by decide, (C3_remove_flower_insufficient [roseRedMedium] roseRedMedium 2
      (by decide)).1⟩

/-- C10: remove_flower(r, n) is total (never raises): it removes exactly
min(n, multiplicity of r) occurrences of r, leaves every other record's
multiplicity unchanged, and is a silent no-op when r is absent. -/
theorem C10_remove_flower_total (l : List FlowerData) (r : FlowerData) (n : Nat) :
    (remove_flower l r n).count r + min n (l.count r) = l.count r ∧
    (∀ g, g ≠ r → (remove_flower l r n).count g = l.count g) ∧
    (r ∉ l → remove_flower l r n = l) := by
  refine ⟨?_, fun g hg => count_remove_flower_other l r g n hg,
    fun h => remove_flower_not_mem l r n h⟩
  rw [count_remove_flower_self]
  omega

theorem C10_remove_flower_total_witness :
    (roseRedMedium : FlowerData) ≠ ⟨"Tulip", "Red", "Medium"⟩ ∧
    (remove_flower [roseRedMedium] roseRedMedium 2).count
      ⟨"Tulip", "Red", "Medium"⟩ = ([roseRedMedium] : List FlowerData).count
      ⟨"Tulip", "Red", "Medium"⟩ :=
  ⟨by decide, (C10_remove_flower_total [roseRedMedium] roseRedMedium 2).2.1
      ⟨"Tulip", "Red", "Medium"⟩ (by decide)⟩

theorem mem_distinctFirstAux {α : Type} [DecidableEq α] (l : List α) :
    ∀ (seen : List α) (a : α),
      a ∈ distinctFirstAux seen l ↔ a ∈ l ∧ a ∉ seen := by
  induction l with
  | nil => intro seen a; simp [distinctFirstAux]
  | cons b bs ih =>
    intro seen a
    by_cases hb : b ∈ seen
    · rw [distinctFirstAux, if_pos hb, ih seen a]
      constructor
      · rintro ⟨h1, h2⟩
        exact ⟨List.mem_cons_of_mem _ h1, h2⟩
      · rintro ⟨h1, h2⟩
        rcases List.mem_cons.mp h1 with h | h
        · exact absurd (h ▸ hb) h2
        · exact ⟨h, h2⟩
    · rw [distinctFirstAux, if_neg hb]
      by_cases hab : a = b
      · subst hab
        simp [hb]
      · simp only [List.mem_cons, hab, false_or]
        rw [ih (b :: seen) a]
        simp only [List.mem_cons, hab, false_or]

theorem mem_distinctFirst {α : Type} [DecidableEq α] (l : List α) (a : α) :
    a ∈ distinctFirst l ↔ a ∈ l := by
  rw [distinctFirst, mem_distinctFirstAux]
  simp

theorem nodup_distinctFirstAux {α : Type} [DecidableEq α] (l : List α) :
    ∀ seen, (distinctFirstAux seen l).Nodup := by
  induction l with
  | nil => intro seen; simp [distinctFirstAux]
  | cons b bs ih =>
    intro seen
    by_cases hb : b ∈ seen
    · rw [distinctFirstAux, if_pos hb]
      exact ih seen
    · rw [distinctFirstAux, if_neg hb, List.nodup_cons]
      refine ⟨fun hmem => ?_, ih _⟩
      rw [mem_distinctFirstAux] at hmem
      exact hmem.2 (List.mem_cons_self _ _)

theorem nodup_distinctFirst {α : Type} [DecidableEq α] (l : List α) :
    (distinctFirst l).Nodup :=
  nodup_distinctFirstAux l []

theorem distinctFirst_ne_nil {α : Type} [DecidableEq α] (l : List α)
    (h : l ≠ []) : distinctFirst l ≠ [] := by
  cases l with
  | nil => exact absurd rfl h
  | cons b bs => simp [distinctFirst, distinctFirstAux]

theorem count_flatten_replicate (c : FlowerData → Nat) (L : List FlowerData)
    (hL : L.Nodup) (g : FlowerData) :
    ((L.map (fun f => List.replicate (c f) f)).flatten).count g =
      if g ∈ L then c g else 0 := by
  induction L with
  | nil => simp
  | cons f L ih =>
    rw [List.nodup_cons] at hL
    have hflat : ((f :: L).map (fun f => List.replicate (c f) f)).flatten =
        List.replicate (c f) f ++ (L.map (fun f => List.replicate (c f) f)).flatten :=
      rfl
    rw [hflat, List.count_append, List.count_replicate, ih hL.2]
    by_cases hg : g = f
    · subst hg
      simp [hL.1]
    · have hg' : ¬ f = g := fun h => hg h.symm
      simp [hg, hg', List.mem_cons]

theorem count_expandCounts (fl : List FlowerData) (g : FlowerData) :
    (expandCounts fl).count g = fl.count g := by
  rw [expandCounts, count_flatten_replicate _ _ (nodup_distinctFirst fl) g]
  by_cases hg : g ∈ fl
  · simp [mem_distinctFirst, hg]
  · simp only [mem_distinctFirst, hg, if_neg, if_false]
    exact (List.count_eq_zero.mpr hg).symm

theorem assocLookup_none_iff {β : Type} (l : List (String × β)) (n : String) :
    assocLookup l n = none ↔ ∀ e ∈ l, e.1 ≠ n := by
  induction l with
  | nil => simp [assocLookup]
  | cons e rest ih =>
    by_cases he : e.1 = n
    · simp [assocLookup, he]
    · simp [assocLookup, he, ih]

theorem assocLookup_map_fn {β : Type} (names : List String) (g : String → β)
    (n : String) :
    assocLookup (names.map (fun m => (m, g m))) n =
      if n ∈ names then some (g n) else none := by
  induction names with
  | nil => simp [assocLookup]
  | cons m ms ih =>
    by_cases hm : m = n
    · subst hm
      simp [assocLookup]
    · have hnm : ¬ (n = m) := fun h => hm h.symm
      simp [assocLookup, hm, ih, List.mem_cons, hnm]

theorem rowsFor_append (a b : List BouquetRow) (n : String) :
    rowsFor (a ++ b) n = rowsFor a n ++ rowsFor b n := by
  simp [rowsFor, List.filter_append]

theorem rowsOfEntry_name (old : List BouquetRow) (e : String × List FlowerData) :
    ∀ r ∈ rowsOfEntry old e, r.bouquetName = e.1 := by
  intro r hr
  rw [rowsOfEntry] at hr
  by_cases h2 : e.2 = []
  · simp only [h2, if_pos, List.mem_singleton] at hr
    rw [hr]
  · simp only [h2, if_neg, List.mem_map, not_false_iff] at hr
    obtain ⟨f, _, hr⟩ := hr
    rw [← hr]

theorem rowsOfEntry_ne_nil (old : List BouquetRow) (e : String × List FlowerData) :
    rowsOfEntry old e ≠ [] := by
  rw [rowsOfEntry]
  by_cases h2 : e.2 = []
  · simp [h2]
  · simp only [h2, if_neg, not_false_iff, ne_eq, List.map_eq_nil_iff]
    exact distinctFirst_ne_nil _ h2

theorem rowsFor_of_uniform (rows : List BouquetRow) (m n : String)
    (h : ∀ r ∈ rows, r.bouquetName = m) :
    rowsFor rows n = if m = n then rows else [] := by
  induction rows with
  | nil => simp [rowsFor]
  | cons r rs ih =>
    have hr := h r (List.mem_cons_self r rs)
    have hrs := ih fun x hx => h x (List.mem_cons_of_mem r hx)
    by_cases hmn : m = n
    · subst hmn
      simp [rowsFor, List.filter_cons, hr, hrs] at hrs ⊢
      exact hrs
    · simp only [rowsFor, List.filter_cons, hr, hmn, if_neg, decide_eq_true_eq] at hrs ⊢
      simp only [hmn, if_false] at hrs ⊢
      simpa [hmn] using hrs

theorem rowsFor_save (old : List BouquetRow) (S : List (String × List FlowerData))
    (hS : (S.map Prod.fst).Nodup) (n : String) :
    rowsFor (save_all_bouquets old S) n =
      (match assocLookup S n with
       | some fl => rowsOfEntry old (n, fl)
       | none => []) := by
  induction S with
  | nil => simp [save_all_bouquets, rowsFor, assocLookup]
  | cons e S' ih =>
    rw [List.map_cons, List.nodup_cons] at hS
    have hsave : save_all_bouquets old (e :: S') =
        rowsOfEntry old e ++ save_all_bouquets old S' := rfl
    rw [hsave, rowsFor_append,
      rowsFor_of_uniform (rowsOfEntry old e) e.1 n (rowsOfEntry_name old e)]
    by_cases he : e.1 = n
    · subst he
      have hnone : assocLookup S' e.1 = none :=
        (assocLookup_none_iff S' e.1).mpr fun x hx hxe =>
          hS.1 (hxe ▸ List.mem_map_of_mem Prod.fst hx)
      rw [ih hS.2, hnone]
      have hl : assocLookup (e :: S') e.1 = some e.2 := by
        simp [assocLookup]
      rw [hl]
      simp
    · have hl : assocLookup (e :: S') n = assocLookup S' n := by
        simp [assocLookup, he]
      rw [hl, ih hS.2, if_neg he, List.nil_append]

theorem loadFromRows_rowsOfEntry (old : List BouquetRow) (n : String)
    (fl : List FlowerData) :
    loadFromRows (rowsOfEntry old (n, fl)) = expandCounts fl := by
  by_cases h : fl = []
  · subst h
    rfl
  · rw [rowsOfEntry]
    simp only [if_neg h]
    rw [loadFromRows, List.map_map]
    rfl

theorem mem_namesOf_iff (file : List BouquetRow) (n : String) :
    n ∈ namesOf file ↔ ∃ r ∈ file, r.bouquetName = n := by
  rw [namesOf, mem_distinctFirst]
  simp [List.mem_map]

theorem rowsFor_nil_iff (file : List BouquetRow) (n : String) :
    rowsFor file n = [] ↔ ∀ r ∈ file, r.bouquetName ≠ n := by
  induction file with
  | nil => simp [rowsFor]
  | cons r rs ih =>
    by_cases hr : r.bouquetName = n
    · simp [rowsFor, List.filter_cons, hr]
    · simp only [rowsFor, List.filter_cons, decide_eq_true_eq, hr, if_false] at ih ⊢
      simp [ih, hr]

theorem assocLookup_load (file : List BouquetRow) (n : String) :
    assocLookup (load_all_bouquets file) n =
      if n ∈ namesOf file then some (loadFlowers file n) else none := by
  rw [load_all_bouquets]
  exact assocLookup_map_fn (namesOf file) (loadFlowers file) n

theorem lookup_load_save (old : List BouquetRow)
    (S : List (String × List FlowerData)) (hS : (S.map Prod.fst).Nodup)
    (n : String) :
    assocLookup (load_all_bouquets (save_all_bouquets old S)) n =
      (assocLookup S n).map expandCounts := by
  rw [assocLookup_load]
  cases hl : assocLookup S n with
  | some fl =>
    have hrows := rowsFor_save old S hS n
    rw [hl] at hrows
    have hne : rowsFor (save_all_bouquets old S) n ≠ [] := by
      rw [hrows]
      exact rowsOfEntry_ne_nil old (n, fl)
    have hmem : n ∈ namesOf (save_all_bouquets old S) := by
      rw [mem_namesOf_iff]
      by_contra hc
      refine hne ((rowsFor_nil_iff _ _).mpr fun r hr hrn => hc ⟨r, hr, hrn⟩)
    rw [if_pos hmem, loadFlowers, hrows, loadFromRows_rowsOfEntry]
    rfl
  | none =>
    have hrows := rowsFor_save old S hS n
    rw [hl] at hrows
    have hmem : n ∉ namesOf (save_all_bouquets old S) := by
      rw [mem_namesOf_iff]
      rintro ⟨r, hr, hrn⟩
      exact (rowsFor_nil_iff _ _).mp hrows r hr hrn
    rw [if_neg hmem]
    rfl

/-- C1: saving a whole BouquetStore (over any pre-existing file) and loading
the result preserves the set of bouquet names, preserves every bouquet's
record-to-count mapping, and keeps empty bouquets present — they are written
as a single placeholder row and load back as the empty composition. -/
theorem C1_roundtrip (old : List BouquetRow)
    (S : List (String × List FlowerData)) (hS : (S.map Prod.fst).Nodup) :
    (∀ n, (assocLookup (load_all_bouquets (save_all_bouquets old S)) n).isSome =
        (assocLookup S n).isSome) ∧
    (∀ n g, flower_count
        ((assocLookup (load_all_bouquets (save_all_bouquets old S)) n).getD []) g =
        flower_count ((assocLookup S n).getD []) g) ∧
    (∀ n, assocLookup S n = some [] →
        assocLookup (load_all_bouquets (save_all_bouquets old S)) n = some [] ∧
        rowsFor (save_all_bouquets old S) n =
          [⟨n, none, 0, optTruthy (firstWixId old n),
            optTruthy (firstWixCat old n)⟩]) := by
  refine ⟨?_, ?_, ?_⟩
  · intro n
    rw [lookup_load_save old S hS n]
    cases assocLookup S n <;> rfl
  · intro n g
    rw [lookup_load_save old S hS n]
    cases hl : assocLookup S n with
    | some fl => simp [flower_count, count_expandCounts]
    | none => rfl
  · intro n h
    constructor
    · rw [lookup_load_save old S hS n, h]
      rfl
    · have hrows := rowsFor_save old S hS n
      rw [h] at hrows
      rw [hrows]
      rfl

theorem C1_roundtrip_witness :
    ((([("A", [roseRedMedium]), ("B", [])] :
        List (String × List FlowerData)).map Prod.fst).Nodup) ∧
    (assocLookup (load_all_bouquets (save_all_bouquets []
        [("A", [roseRedMedium]), ("B", [])])) "B").isSome =
      (assocLookup [("A", [roseRedMedium]), ("B", [])] "B").isSome :=
  ⟨by decide, (C1_roundtrip [] [("A", [roseRedMedium]), ("B", [])]
      (by decide)).1 "B"⟩

/-- C4 counterexample: constructing Bouquet("A", load_existing=True) on an
empty store does not fail with "not found" — it succeeds and returns a fresh
empty bouquet. -/
theorem C4_counterexample :
    bouquetInit [] "A" none true = Except.ok ⟨"A", []⟩ := rfl

/-- C4 (amended): for every name absent from the BouquetStore, constructing
Bouquet(name, load_existing=True) (with no based_on) does not fail: it
silently succeeds with a fresh empty composition. -/
theorem C4_load_missing (file : List BouquetRow) (name : String)
    (h : assocLookup (load_all_bouquets file) name = none) :
    bouquetInit file name none true = Except.ok ⟨name, []⟩ := by
  simp [bouquetInit, h]

theorem C4_load_missing_witness :
    assocLookup (load_all_bouquets []) "A" = none ∧
    bouquetInit [] "A" none true = Except.ok ⟨"A", []⟩ :=
  ⟨rfl, C4_load_missing [] "A" rfl⟩

/-- C7: for a name already present in the store, constructing Bouquet(name)
without load_existing fails with the "already exists" conflict error, while
constructing it with load_existing=True succeeds with exactly the stored
composition. -/
theorem C7_conflict_or_load (file : List BouquetRow) (name : String)
    (fl : List FlowerData) (bo : Option String)
    (h : assocLookup (load_all_bouquets file) name = some fl) :
    bouquetInit file name bo false =
      Except.error ("Bouquet '" ++ name ++ "' already exists") ∧
    bouquetInit file name bo true = Except.ok ⟨name, fl⟩ := by
  constructor <;> simp [bouquetInit, h]

theorem C7_conflict_or_load_witness :
    assocLookup (load_all_bouquets [⟨"A", some roseRedMedium, 2, none, none⟩])
      "A" = some [roseRedMedium, roseRedMedium] ∧
    bouquetInit [⟨"A", some roseRedMedium, 2, none, none⟩] "A" none true =
      Except.ok ⟨"A", [roseRedMedium, roseRedMedium]⟩ :=
  ⟨rfl, (C7_conflict_or_load [⟨"A", some roseRedMedium, 2, none, none⟩]
      "A" [roseRedMedium, roseRedMedium] none rfl).2⟩

theorem assocLookup_append {β : Type} (a b : List (String × β)) (n : String) :
    assocLookup (a ++ b) n =
      (match assocLookup a n with
       | some v => some v
       | none => assocLookup b n) := by
  induction a with
  | nil => simp [assocLookup]
  | cons e rest ih =>
    by_cases he : e.1 = n
    · simp [assocLookup, he]
    · simp [assocLookup, he, ih]

theorem assocLookup_isSome_iff {β : Type} (l : List (String × β)) (n : String) :
    (assocLookup l n).isSome = true ↔ ∃ e ∈ l, e.1 = n := by
  induction l with
  | nil => simp [assocLookup]
  | cons e rest ih =>
    by_cases he : e.1 = n
    · simp [assocLookup, he]
    · simp only [assocLookup, he, if_neg, if_false, ih, List.mem_cons]
      constructor
      · rintro ⟨x, hx, hxe⟩
        exact ⟨x, Or.inr hx, hxe⟩
      · rintro ⟨x, hx | hx, hxe⟩
        · exact absurd (hx ▸ hxe) he
        · exact ⟨x, hx, hxe⟩

/-- C9: in both catalogs, adding an already-present name and removing an
absent name are silent no-ops that leave the catalog unchanged; add followed
by a duplicate add leaves the state of the first add, holding exactly one
entry for the name (with the config of the first add). -/
theorem C9_catalog_noop :
    (∀ (l : List (String × FlowerConfig)) n,
        (assocLookup l n).isSome = true → typesAdd l n = l) ∧
    (∀ (l : List (String × FlowerConfig)) n,
        assocLookup l n = none → typesRemove l n = l) ∧
    (∀ (l : List (String × FlowerConfig)) n,
        typesAdd (typesAdd l n) n = typesAdd l n) ∧
    (∀ (l : List (String × FlowerConfig)) n, (l.map Prod.fst).Nodup →
        ((typesAdd l n).map Prod.fst).count n = 1) ∧
    (∀ (l : List String) c, c ∈ l → colorsAdd l c = l) ∧
    (∀ (l : List String) c, c ∉ l → colorsRemove l c = l) ∧
    (∀ (l : List String) c, colorsAdd (colorsAdd l c) c = colorsAdd l c) ∧
    (∀ (l : List String) c, l.Nodup → (colorsAdd l c).count c = 1) := by
  have haddSome : ∀ (l : List (String × FlowerConfig)) n,
      (assocLookup l n).isSome = true → typesAdd l n = l := by
    intro l n h
    rw [typesAdd, if_pos h]
  have haddNone : ∀ (l : List (String × FlowerConfig)) n,
      assocLookup l n = none → typesAdd l n = l ++ [(n, ⟨[], []⟩)] := by
    intro l n h
    rw [typesAdd, h]
    rfl
  refine ⟨haddSome, ?_, ?_, ?_, ?_, ?_, ?_, ?_⟩
  · intro l n h
    rw [typesRemove, h]
    rfl
  · intro l n
    cases hl : assocLookup l n with
    | some v =>
      have h1 := haddSome l n (by rw [hl]; rfl)
      rw [h1, h1]
    | none =>
      rw [haddNone l n hl]
      apply haddSome
      rw [assocLookup_append, hl]
      simp [assocLookup]
  · intro l n hnd
    cases hl : assocLookup l n with
    | some v =>
      rw [haddSome l n (by rw [hl]; rfl)]
      have hmem : n ∈ l.map Prod.fst := by
        obtain ⟨e, he, hen⟩ := (assocLookup_isSome_iff l n).mp (by rw [hl]; rfl)
        exact hen ▸ List.mem_map_of_mem Prod.fst he
      have h1 : (l.map Prod.fst).count n ≤ 1 :=
        List.nodup_iff_count_le_one.mp hnd n
      have h2 : 0 < (l.map Prod.fst).count n := List.count_pos_iff.mpr hmem
      omega
    | none =>
      rw [haddNone l n hl, List.map_append, List.count_append]
      have hzero : (l.map Prod.fst).count n = 0 := by
        rw [List.count_eq_zero]
        intro hmem
        obtain ⟨e, he, hen⟩ := List.mem_map.mp hmem
        exact (assocLookup_none_iff l n).mp hl e he hen
      rw [hzero]
      simp
  · intro l c h
    rw [colorsAdd, if_pos h]
  · intro l c h
    rw [colorsRemove, if_neg h]
  · intro l c
    by_cases h : c ∈ l
    · have h1 : colorsAdd l c = l := by rw [colorsAdd, if_pos h]
      rw [h1, h1]
    · have h1 : colorsAdd l c = l ++ [c] := by rw [colorsAdd, if_neg h]
      have hmem : c ∈ l ++ [c] :=
        List.mem_append_right l (List.mem_singleton_self c)
      rw [h1, colorsAdd, if_pos hmem]
  · intro l c hnd
    by_cases h : c ∈ l
    · rw [colorsAdd, if_pos h]
      have h1 : l.count c ≤ 1 := List.nodup_iff_count_le_one.mp hnd c
      have h2 : 0 < l.count c := List.count_pos_iff.mpr h
      omega
    · rw [colorsAdd, if_neg h, List.count_append,
        List.count_eq_zero.mpr h]
      simp

theorem C9_catalog_noop_witness :
    (assocLookup ([("Rose", ⟨[], []⟩)] : List (String × FlowerConfig))
        "Rose").isSome = true ∧
    typesAdd [("Rose", ⟨[], []⟩)] "Rose" = [("Rose", ⟨[], []⟩)] :=
  ⟨by decide, C9_catalog_noop.1 [("Rose", ⟨[], []⟩)] "Rose" (by decide)⟩

theorem assocLookup_map_replace (S : List (String × List FlowerData))
    (n : String) (fl : List FlowerData) :
    assocLookup (S.map (fun e => if e.1 = n then (e.1, fl) else e)) n =
      (match assocLookup S n with
       | some _ => some fl
       | none => none) := by
  induction S with
  | nil => simp [assocLookup]
  | cons e rest ih =>
    by_cases he : e.1 = n
    · simp [assocLookup, he]
    · simp [assocLookup, he, ih]

theorem assocLookup_map_replace_other (S : List (String × List FlowerData))
    (n m : String) (fl : List FlowerData) (h : m ≠ n) :
    assocLookup (S.map (fun e => if e.1 = n then (e.1, fl) else e)) m =
      assocLookup S m := by
  induction S with
  | nil => simp [assocLookup]
  | cons e rest ih =>
    by_cases he : e.1 = n
    · have hem : ¬ (e.1 = m) := fun hh => h ((hh ▸ he : m = n))
      simp [assocLookup, he, hem, ih, Ne.symm h]
    · by_cases hem : e.1 = m
      · simp [assocLookup, he, hem, h]
      · simp [assocLookup, he, hem, ih]

theorem storeUpdate_lookup_self (S : List (String × List FlowerData))
    (n : String) (fl : List FlowerData) :
    assocLookup (storeUpdate S n fl) n = some fl := by
  rw [storeUpdate]
  by_cases h : (assocLookup S n).isSome = true
  · rw [if_pos h, assocLookup_map_replace]
    cases hl : assocLookup S n with
    | some v => rfl
    | none => rw [hl] at h; exact absurd h (by simp)
  · rw [if_neg h, assocLookup_append]
    cases hl : assocLookup S n with
    | some v => rw [hl] at h; exact absurd (by simp) h
    | none => simp [assocLookup]

theorem storeUpdate_lookup_other (S : List (String × List FlowerData))
    (n m : String) (fl : List FlowerData) (h : m ≠ n) :
    assocLookup (storeUpdate S n fl) m = assocLookup S m := by
  rw [storeUpdate]
  by_cases hp : (assocLookup S n).isSome = true
  · rw [if_pos hp, assocLookup_map_replace_other S n m fl h]
  · rw [if_neg hp, assocLookup_append]
    cases hl : assocLookup S m with
    | some v => rfl
    | none => simp [assocLookup, Ne.symm h]

theorem storeUpdate_keys_nodup (S : List (String × List FlowerData))
    (n : String) (fl : List FlowerData) (h : (S.map Prod.fst).Nodup) :
    ((storeUpdate S n fl).map Prod.fst).Nodup := by
  rw [storeUpdate]
  by_cases hp : (assocLookup S n).isSome = true
  · rw [if_pos hp, List.map_map]
    have heq : (Prod.fst ∘ fun e : String × List FlowerData =>
        if e.1 = n then (e.1, fl) else e) = Prod.fst := by
      funext e
      by_cases he : e.1 = n <;> simp [he]
    rw [heq]
    exact h
  · rw [if_neg hp, List.map_append, List.nodup_append]
    refine ⟨h, by simp, ?_⟩
    intro a ha hb
    have hn : a = n := by simpa using hb
    subst hn
    obtain ⟨e, he, hea⟩ := List.mem_map.mp ha
    have : assocLookup S a = none := by
      cases hl : assocLookup S a with
      | some v => rw [hl] at hp; exact absurd (by simp) hp
      | none => rfl
    exact (assocLookup_none_iff S a).mp this e he hea

theorem load_keys_nodup (file : List BouquetRow) :
    ((load_all_bouquets file).map Prod.fst).Nodup := by
  rw [load_all_bouquets, List.map_map]
  have heq : (Prod.fst ∘ fun n => (n, loadFlowers file n)) =
      (id : String → String) := by
    funext n
    rfl
  rw [heq, List.map_id]
  exact nodup_distinctFirst _

theorem save_row_wix (old : List BouquetRow)
    (S : List (String × List FlowerData)) :
    ∀ r ∈ save_all_bouquets old S,
      r.wixId = optTruthy (firstWixId old r.bouquetName) ∧
      r.wixCat = optTruthy (firstWixCat old r.bouquetName) := by
  intro r hr
  rw [save_all_bouquets] at hr
  obtain ⟨rows, hrows, hrmem⟩ := List.mem_flatten.mp hr
  obtain ⟨e, _, hrowse⟩ := List.mem_map.mp hrows
  subst hrowse
  rw [rowsOfEntry] at hrmem
  by_cases h2 : e.2 = []
  · simp only [h2, if_pos, List.mem_singleton] at hrmem
    subst hrmem
    exact ⟨rfl, rfl⟩
  · simp only [h2, if_neg, not_false_iff, List.mem_map] at hrmem
    obtain ⟨f, _, hrf⟩ := hrmem
    subst hrf
    exact ⟨rfl, rfl⟩

/-- C8: b.save() fully replaces the store's composition under b's name with
b's current multiset (the reloaded entry has exactly b's counts), leaves the
presence and the record-to-count mapping of every other bouquet unchanged,
and every rewritten row — for b's name and every other name alike — carries
exactly the (truthy) Wix ID / Wix Category metadata the pre-existing file
held under that row's bouquet name. -/
theorem C8_save_frame (file : List BouquetRow) (bname : String)
    (flowers : List FlowerData) :
    (assocLookup (load_all_bouquets (bouquetSave file bname flowers)) bname =
      some (expandCounts flowers)) ∧
    (∀ g, flower_count ((assocLookup (load_all_bouquets
        (bouquetSave file bname flowers)) bname).getD []) g =
      flower_count flowers g) ∧
    (∀ n, n ≠ bname →
      (assocLookup (load_all_bouquets (bouquetSave file bname flowers)) n).isSome =
        (assocLookup (load_all_bouquets file) n).isSome) ∧
    (∀ n g, n ≠ bname →
      flower_count ((assocLookup (load_all_bouquets
          (bouquetSave file bname flowers)) n).getD []) g =
        flower_count ((assocLookup (load_all_bouquets file) n).getD []) g) ∧
    (∀ r ∈ bouquetSave file bname flowers,
      r.wixId = optTruthy (firstWixId file r.bouquetName) ∧
      r.wixCat = optTruthy (firstWixCat file r.bouquetName)) := by
  have hnd' := storeUpdate_keys_nodup (load_all_bouquets file) bname flowers
    (load_keys_nodup file)
  have hmain : ∀ n,
      assocLookup (load_all_bouquets (bouquetSave file bname flowers)) n =
        (assocLookup (storeUpdate (load_all_bouquets file) bname flowers)
          n).map expandCounts :=
    fun n => lookup_load_save file _ hnd' n
  refine ⟨?_, ?_, ?_, ?_, save_row_wix file _⟩
  · rw [hmain bname, storeUpdate_lookup_self]
    rfl
  · intro g
    rw [hmain bname, storeUpdate_lookup_self]
    simp [flower_count, count_expandCounts]
  · intro n hn
    rw [hmain n, storeUpdate_lookup_other _ _ _ _ hn]
    cases assocLookup (load_all_bouquets file) n <;> rfl
  · intro n g hn
    rw [hmain n, storeUpdate_lookup_other _ _ _ _ hn]
    cases assocLookup (load_all_bouquets file) n with
    | some fl => simp [flower_count, count_expandCounts]
    | none => rfl

theorem C8_save_frame_witness :
    ("B" : String) ≠ "A" ∧
    (assocLookup (load_all_bouquets (bouquetSave [] "A" [roseRedMedium]))
        "B").isSome =
      (assocLookup (load_all_bouquets ([] : List BouquetRow)) "B").isSome :=
  ⟨by decide, (C8_save_frame [] "A" [roseRedMedium]).2.2.1 "B" (by decide)⟩

/-- C5 counterexample: a file where bouquet "A" carries Wix ID "123" — after
rename_bouquet("A", "B") the rewritten file's only row (bouquet "B", A's
former flower) carries no Wix ID at all: the external-link metadata keyed to
the old name is dropped, contradicting the claim that the new name keeps it. -/
theorem C5_counterexample :
    rename_bouquet [⟨"A", some roseRedMedium, 1, some "123", none⟩] "A" "B" =
      Except.ok [⟨"B", some roseRedMedium, 1, none, none⟩] ∧
    firstWixId [⟨"A", some roseRedMedium, 1, some "123", none⟩] "A" =
      some "123" ∧
    firstWixId [⟨"B", some roseRedMedium, 1, none, none⟩] "B" = none :=
  ⟨rfl, rfl, rfl⟩

theorem assocLookup_filter_key {β : Type} (S : List (String × β))
    (k n : String) (h : n ≠ k) :
    assocLookup (S.filter (fun e => ¬ (e.1 = k))) n = assocLookup S n := by
  induction S with
  | nil => rfl
  | cons e rest ih =>
    by_cases hek : e.1 = k
    · have hen : ¬ (e.1 = n) := fun hh => h ((hh ▸ hek : n = k))
      have hf : (e :: rest).filter (fun e => ¬ (e.1 = k)) =
          rest.filter (fun e => ¬ (e.1 = k)) := by
        simp [List.filter_cons, hek]
      rw [hf, ih]
      simp [assocLookup, hen]
    · have hf : (e :: rest).filter (fun e => ¬ (e.1 = k)) =
          e :: rest.filter (fun e => ¬ (e.1 = k)) := by
        simp [List.filter_cons, hek]
      rw [hf]
      by_cases hen : e.1 = n
      · simp [assocLookup, hen]
      · show (if e.1 = n then some e.2
            else assocLookup (rest.filter (fun e => ¬ (e.1 = k))) n) =
          (if e.1 = n then some e.2 else assocLookup rest n)
        rw [if_neg hen, if_neg hen, ih]

/-- C5 (amended): rename_bouquet(old, new) fails with "not found" if old is
absent and with the "already exists" conflict (file untouched: no save is
reached) if new is present; otherwise it succeeds, old disappears, new holds
old's former record-to-count mapping and every other bouquet is unchanged —
but the external-link (Wix ID / Wix Category) metadata that the file held
under the old name is NOT moved: the rows written for the new name carry only
whatever metadata the pre-existing file held under the NEW name (none,
unless new already appeared there). -/
theorem C5_rename (file : List BouquetRow) (oldN newN : String) :
    (assocLookup (load_all_bouquets file) oldN = none →
      rename_bouquet file oldN newN =
        Except.error ("Bouquet '" ++ oldN ++ "' not found.")) ∧
    (∀ fl, assocLookup (load_all_bouquets file) oldN = some fl →
      (assocLookup (load_all_bouquets file) newN).isSome = true →
      rename_bouquet file oldN newN =
        Except.error ("Bouquet '" ++ newN ++ "' already exists.")) ∧
    (∀ fl, assocLookup (load_all_bouquets file) oldN = some fl →
      assocLookup (load_all_bouquets file) newN = none →
      ∃ file', rename_bouquet file oldN newN = Except.ok file' ∧
        assocLookup (load_all_bouquets file') oldN = none ∧
        (assocLookup (load_all_bouquets file') newN).isSome = true ∧
        (∀ g, flower_count
            ((assocLookup (load_all_bouquets file') newN).getD []) g =
          flower_count fl g) ∧
        (∀ n, n ≠ oldN → n ≠ newN →
          assocLookup (load_all_bouquets file') n =
            (assocLookup (load_all_bouquets file) n).map expandCounts) ∧
        (∀ r ∈ file', r.bouquetName = newN →
          r.wixId = optTruthy (firstWixId file newN) ∧
          r.wixCat = optTruthy (firstWixCat file newN))) := by
  refine ⟨?_, ?_, ?_⟩
  · intro h
    simp [rename_bouquet, h]
  · intro fl ho hn
    simp [rename_bouquet, ho, hn]
  · intro fl ho hn
    have hne : newN ≠ oldN := by
      intro hh
      rw [hh, ho] at hn
      exact Option.noConfusion hn
    set S := load_all_bouquets file with hSdef
    set S' := S.filter (fun e => ¬ (e.1 = oldN)) ++ [(newN, fl)] with hdefS'
    refine ⟨save_all_bouquets file S', ?_, ?_⟩
    · simp [rename_bouquet, ho, hn, hdefS']
    have hndS : (S.map Prod.fst).Nodup := load_keys_nodup file
    have hsub : ((S.filter (fun e => ¬ (e.1 = oldN))).map Prod.fst).Nodup := by
      exact ((List.filter_sublist S).map Prod.fst).nodup hndS
    have hnotin : newN ∉ (S.filter (fun e => ¬ (e.1 = oldN))).map Prod.fst := by
      intro hmem
      obtain ⟨e, he, hen⟩ := List.mem_map.mp hmem
      have heS : e ∈ S := List.mem_of_mem_filter he
      exact (assocLookup_none_iff S newN).mp hn e heS hen
    have hndS' : (S'.map Prod.fst).Nodup := by
      rw [hdefS', List.map_append, List.nodup_append]
      refine ⟨hsub, by simp, ?_⟩
      intro a ha hb
      have : a = newN := by simpa using hb
      exact hnotin (this ▸ ha)
    have hmain : ∀ n,
        assocLookup (load_all_bouquets (save_all_bouquets file S')) n =
          (assocLookup S' n).map expandCounts :=
      fun n => lookup_load_save file S' hndS' n
    have hlookOld : assocLookup S' oldN = none := by
      rw [hdefS', assocLookup_append]
      have h1 : assocLookup (S.filter (fun e => ¬ (e.1 = oldN))) oldN = none := by
        rw [assocLookup_none_iff]
        intro e he
        have := List.of_mem_filter he
        simpa using this
      rw [h1]
      simp [assocLookup, hne]
    have hlookNew : assocLookup S' newN = some fl := by
      rw [hdefS', assocLookup_append]
      have h1 : assocLookup (S.filter (fun e => ¬ (e.1 = oldN))) newN = none := by
        rw [assocLookup_filter_key S oldN newN hne]
        exact hn
      rw [h1]
      simp [assocLookup]
    refine ⟨?_, ?_, ?_, ?_, ?_⟩
    · rw [hmain oldN, hlookOld]
      rfl
    · rw [hmain newN, hlookNew]
      rfl
    · intro g
      rw [hmain newN, hlookNew]
      simp [flower_count, count_expandCounts]
    · intro n hno hnn
      rw [hmain n, hdefS', assocLookup_append,
        assocLookup_filter_key S oldN n hno]
      cases hl : assocLookup S n with
      | some v => rfl
      | none => simp [assocLookup, Ne.symm hnn]
    · intro r hr hrn
      have := save_row_wix file S' r hr
      rw [hrn] at this
      exact this

theorem C5_rename_witness :
    assocLookup (load_all_bouquets ([] : List BouquetRow)) "A" = none ∧
    rename_bouquet [] "A" "B" =
      Except.error ("Bouquet '" ++ "A" ++ "' not found.") :=
  ⟨rfl, (C5_rename [] "A" "B").1 rfl⟩

theorem setWixStep1_bouquetName (bname : String) (wixId wixCat : Option String)
    (r : BouquetRow) :
    (setWixStep1 bname wixId wixCat r).bouquetName = r.bouquetName := by
  cases wixId with
  | none => by_cases h : r.bouquetName = bname <;> simp [setWixStep1, h]
  | some s => by_cases h : r.bouquetName = bname <;> simp [setWixStep1, h]

theorem setWixStep2_bouquetName (bname s : String) (r : BouquetRow) :
    (setWixStep2 bname s r).bouquetName = r.bouquetName := by
  by_cases h : r.wixId = some s ∧ ¬ (r.bouquetName = bname) <;>
    simp [setWixStep2, h]

theorem setWixStep1_target (bname s : String) (r : BouquetRow)
    (h : r.bouquetName = bname) :
    setWixStep1 bname (some s) none r = { r with wixId := some s } := by
  simp [setWixStep1, h]

theorem setWixStep1_other (bname : String) (wixId wixCat : Option String)
    (r : BouquetRow) (h : ¬ (r.bouquetName = bname)) :
    setWixStep1 bname wixId wixCat r = r := by
  cases wixId <;> simp [setWixStep1, h]

theorem setWixStep2_clear (bname s : String) (r : BouquetRow)
    (h1 : r.wixId = some s) (h2 : ¬ (r.bouquetName = bname)) :
    setWixStep2 bname s r = { r with wixId := none, wixCat := none } := by
  simp [setWixStep2, h1, h2]

theorem setWixStep2_keep (bname s : String) (r : BouquetRow)
    (h : ¬ (r.wixId = some s ∧ ¬ (r.bouquetName = bname))) :
    setWixStep2 bname s r = r := by
  simp only [setWixStep2]
  rw [if_neg h]

theorem foldl_wixMap (X A : String) (hX : X ≠ "") (hA : A ≠ "") :
    ∀ (file : List BouquetRow) (m : String → Option String),
    (∀ r ∈ file, ∀ s, r.wixId = some s → pyStrip s = X →
        r.bouquetName = A) →
    (m X = some A ∨ ∃ r ∈ file, ∃ s, r.wixId = some s ∧ pyStrip s = X) →
    List.foldl wixMapStep m file X = some A := by
  intro file
  induction file with
  | nil =>
    intro m _ hinit
    rcases hinit with hm | ⟨r, hr, _⟩
    · exact hm
    · exact absurd hr (List.not_mem_nil r)
  | cons r rest ih =>
    intro m hall hinit
    have hstep : List.foldl wixMapStep m (r :: rest) =
        List.foldl wixMapStep (wixMapStep m r) rest := rfl
    rw [hstep]
    apply ih
    · intro r' hr' s hs hstrip
      exact hall r' (List.mem_cons_of_mem _ hr') s hs hstrip
    · by_cases hr : ∃ s, r.wixId = some s ∧ pyStrip s = X
      · obtain ⟨s, hs, hstrip⟩ := hr
        left
        have hname : r.bouquetName = A :=
          hall r (List.mem_cons_self r rest) s hs hstrip
        simp only [wixMapStep, hs]
        rw [if_pos ⟨by rw [hstrip]; exact hX, by rw [hname]; exact hA⟩]
        simp [hstrip, hname]
      · have hmX : wixMapStep m r X = m X := by
          cases hs : r.wixId with
          | none => simp only [wixMapStep, hs]
          | some s =>
            simp only [wixMapStep, hs]
            by_cases hcond : pyStrip s ≠ "" ∧ r.bouquetName ≠ ""
            · rw [if_pos hcond]
              have hXs : ¬ (X = pyStrip s) := fun hh => hr ⟨s, hs, hh.symm⟩
              simp [hXs]
            · rw [if_neg hcond]
        rcases hinit with hm | ⟨r', hr', s, hs', hstrip'⟩
        · left
          rw [hmX]
          exact hm
        · rcases List.mem_cons.mp hr' with h | h
          · exact absurd ⟨s, h ▸ hs', hstrip'⟩ hr
          · right
            exact ⟨r', h, s, hs', hstrip'⟩

/-- C6: if bouquet B's rows currently hold Wix ID X and bouquet A (a
different, present name) is given X via set_bouquet_wix_id, then afterwards
B's rows carry no Wix ID, A's rows all carry X, no row of any bouquet other
than A carries X (at-most-one-bouquet-per-id), and the reverse map of
get_wix_id_map sends X to A, the most recently written association. -/
theorem C6_wix_id_unique (file : List BouquetRow) (A B X : String)
    (hAB : A ≠ B) (hA : A ≠ "") (hXstrip : pyStrip X = X) (hX : X ≠ "")
    (hArows : ∃ r ∈ file, r.bouquetName = A)
    (hBX : ∀ r ∈ file, r.bouquetName = B → r.wixId = some X)
    (hTrim : ∀ r ∈ file, r.wixId.map pyStrip = some X → r.wixId = some X) :
    (∀ r ∈ set_bouquet_wix_id file A (some X) none,
        r.bouquetName = B → r.wixId = none) ∧
    (∀ r ∈ set_bouquet_wix_id file A (some X) none,
        r.bouquetName = A → r.wixId = some X) ∧
    (∀ r ∈ set_bouquet_wix_id file A (some X) none,
        r.wixId = some X → r.bouquetName = A) ∧
    get_wix_id_map (set_bouquet_wix_id file A (some X) none) X = some A := by
  have hrowA : ∀ r : BouquetRow, r.bouquetName = A →
      setWixStep2 A X (setWixStep1 A (some X) none r) =
        { r with wixId := some X } := by
    intro r h
    rw [setWixStep1_target A X r h]
    apply setWixStep2_keep
    rintro ⟨_, hnot⟩
    exact hnot h
  have hrowClear : ∀ r : BouquetRow, ¬ (r.bouquetName = A) →
      r.wixId = some X →
      setWixStep2 A X (setWixStep1 A (some X) none r) =
        { r with wixId := none, wixCat := none } := by
    intro r hna hx
    rw [setWixStep1_other A (some X) none r hna, setWixStep2_clear A X r hx hna]
  have hrowKeep : ∀ r : BouquetRow, ¬ (r.bouquetName = A) →
      ¬ (r.wixId = some X) →
      setWixStep2 A X (setWixStep1 A (some X) none r) = r := by
    intro r hna hx
    rw [setWixStep1_other A (some X) none r hna]
    exact setWixStep2_keep A X r (fun hc => hx hc.1)
  have hmem : ∀ r', r' ∈ set_bouquet_wix_id file A (some X) none →
      ∃ r ∈ file, setWixStep2 A X (setWixStep1 A (some X) none r) = r' := by
    intro r' hr'
    have : r' ∈ (file.map (setWixStep1 A (some X) none)).map (setWixStep2 A X) :=
      hr'
    rw [List.map_map] at this
    obtain ⟨r, hr, hfr⟩ := List.mem_map.mp this
    exact ⟨r, hr, hfr⟩
  refine ⟨?_, ?_, ?_, ?_⟩
  · intro r' hr' hBname
    obtain ⟨r, hr, hfr⟩ := hmem r' hr'
    have hname : r.bouquetName = B := by
      rw [← hfr] at hBname
      rw [setWixStep2_bouquetName, setWixStep1_bouquetName] at hBname
      exact hBname
    have hna : ¬ (r.bouquetName = A) := by
      rw [hname]
      exact fun hh => hAB hh.symm
    rw [← hfr, hrowClear r hna (hBX r hr hname)]
  · intro r' hr' hAname
    obtain ⟨r, hr, hfr⟩ := hmem r' hr'
    have hname : r.bouquetName = A := by
      rw [← hfr] at hAname
      rw [setWixStep2_bouquetName, setWixStep1_bouquetName] at hAname
      exact hAname
    rw [← hfr, hrowA r hname]
  · intro r' hr' hxid
    obtain ⟨r, hr, hfr⟩ := hmem r' hr'
    have hname : (setWixStep2 A X (setWixStep1 A (some X) none r)).bouquetName =
        r.bouquetName := by
      rw [setWixStep2_bouquetName, setWixStep1_bouquetName]
    by_cases hna : r.bouquetName = A
    · rw [← hfr, hname]
      exact hna
    · exfalso
      by_cases hx : r.wixId = some X
      · rw [← hfr, hrowClear r hna hx] at hxid
        exact Option.noConfusion hxid
      · rw [← hfr, hrowKeep r hna hx] at hxid
        exact hx hxid
  · apply foldl_wixMap X A hX hA
    · intro r' hr' s hs hstrip
      obtain ⟨r, hr, hfr⟩ := hmem r' hr'
      have hname : (setWixStep2 A X (setWixStep1 A (some X) none r)).bouquetName =
          r.bouquetName := by
        rw [setWixStep2_bouquetName, setWixStep1_bouquetName]
      by_cases hna : r.bouquetName = A
      · rw [← hfr, hname]
        exact hna
      · exfalso
        by_cases hx : r.wixId = some X
        · rw [← hfr, hrowClear r hna hx] at hs
          exact Option.noConfusion hs
        · rw [← hfr, hrowKeep r hna hx] at hs
          exact hx (hTrim r hr (by rw [hs, Option.map_some', hstrip]))
    · right
      obtain ⟨ra, hra, hraA⟩ := hArows
      refine ⟨setWixStep2 A X (setWixStep1 A (some X) none ra), ?_, X, ?_, hXstrip⟩
      · exact List.mem_map_of_mem (setWixStep2 A X)
          (List.mem_map_of_mem (setWixStep1 A (some X) none) hra)
      · rw [hrowA ra hraA]

theorem C6_wix_id_unique_witness :
    (("Spring" : String) ≠ "Summer") ∧
    get_wix_id_map (set_bouquet_wix_id
      [⟨"Spring", some roseRedMedium, 1, none, none⟩,
       ⟨"Summer", some ⟨"Tulip", "Yellow", "Small"⟩, 1, some "123", none⟩]
      "Spring" (some "123") none) "123" = some "Spring" :=
  ⟨by decide,
    (C6_wix_id_unique
      [⟨"Spring", some roseRedMedium, 1, none, none⟩,
       ⟨"Summer", some ⟨"Tulip", "Yellow", "Small"⟩, 1, some "123", none⟩]
      "Spring" "Summer" "123" (by decide) (by decide) (by decide) (by decide)
      (by decide) (by decide) (by decide)).2.2.2⟩
